import Mathlib

/-!
Verification of the birdwatched motion-detection core.

This file gives a shallow embedding of the parts of the repository that the
verified properties concern:

* ClipBuffer (detector.py, class ClipBuffer): the sliding-window clip buffer
  with its incrementally maintained window totals and front trimming.
* Detector (detector.py, class Detector): the IDLE / TRIGGERED / COOLDOWN
  state machine, coupled to the clip buffer, with the per-cycle movement
  boolean and wall-clock time supplied as inputs (the OpenCV motion scorer
  and the system clock are external to the model).
* RTSPCameraCapture (rtsp_camera.py): the capture loop's reconnection logic,
  with read results and connection outcomes supplied as per-cycle inputs.
* The clip single-flight guard (detector.py, Detector._trigger_event and
  Detector._write_clip), modelled as an explicit interleaving of the atomic
  actions the two Python threads perform on the shared is_recording flag.

Frames are abstracted as values of an arbitrary type (the pixel contents
never influence any modelled behaviour); motion scores and times are
rationals.  Python deques with maxlen are lists together with the
capacity-respecting push defined below.  Fields of ClipBuffer that feed no
modelled behaviour (the running average frame and the debug plotting log)
are omitted.
-/

namespace Birdwatched

/-- Push an element at the right end of a deque with capacity cap,
evicting the leftmost element when the deque is full.  This is the
behaviour of appending to a Python collections.deque with maxlen. -/
def pushCap {β : Type} (cap : ℕ) (xs : List β) (x : β) : List β :=
  if xs.length = cap then xs.tail ++ [x] else xs ++ [x]

/-- State of detector.py's ClipBuffer: the frame deque, the parallel deque
of motion scores, and the deque of sliding-window totals.  The frame type is
abstract.  The capacities (L = clip_seconds * fps for the window length and
C = L + 120 for the buffer) are passed to the operations explicitly. -/
structure ClipBuffer (α : Type) where
  buffer : List α
  motion_flags : List ℚ
  window_totals : List ℚ
deriving DecidableEq

namespace ClipBuffer

/-- Constructor state of ClipBuffer: empty deques and the single initial
window total 0 (detector.py line 63). -/
def init {α : Type} : ClipBuffer α := ⟨[], [], [0]⟩

/-- One iteration of the loop body of ClipBuffer.trim_start: if the buffer
is empty or the oldest motion score is at least the threshold, stop;
otherwise evict the oldest (frame, score) pair and either drop the oldest
window total (when more than one is held) or subtract the evicted score
from the single remaining total.  trim_start runs this up to frame_cnt
times (detector.py lines 146-158). -/
def trim_start {α : Type} : ℕ → ℚ → ClipBuffer α → ClipBuffer α
  | 0, _, s => s
  | n + 1, threshold, s =>
    if s.buffer.isEmpty then s
    else
      let motion_level := s.motion_flags.headD 0
      if motion_level ≥ threshold then s
      else
        trim_start n threshold
          { buffer := s.buffer.tail
            motion_flags := s.motion_flags.tail
            window_totals :=
              if s.window_totals.length > 1 then s.window_totals.tail
              else
                match s.window_totals with
                | [] => []  -- unreachable: window_totals is never empty (claim C9)
                | t :: ts => (t - motion_level) :: ts }

/-- The input-validation step of ClipBuffer.append (detector.py lines
116-118): a motion score outside the interval 0..1 is logged and replaced
by 0. -/
def coerceScore (motion : ℚ) : ℚ :=
  if motion > 1 ∨ motion < 0 then 0 else motion

/-- The insertion part of ClipBuffer.append (detector.py lines 115-127),
before the trailing trim_start(2) call: coerce an out-of-range motion score
to 0, push the frame and the score, and update window_totals - during
warm-up (buffer not yet longer than L) add the score into the single
accumulating total, otherwise append lastTotal + motion - droppedScore
where droppedScore is the score L + 1 positions from the right end of
motion_flags after the push. -/
def appendNoTrim {α : Type} (L C : ℕ) (s : ClipBuffer α) (frame : α)
    (motion : ℚ) : ClipBuffer α :=
  let motion := coerceScore motion
  let buffer := pushCap C s.buffer frame
  let motion_flags := pushCap C s.motion_flags motion
  let window_totals :=
    if buffer.length ≤ L then
      match s.window_totals with
      | [] => []  -- unreachable: window_totals is never empty (claim C9)
      | t :: ts => (t + motion) :: ts
    else
      let dropped := motion_flags.getD (motion_flags.length - (L + 1)) 0
      pushCap (C - L + 1) s.window_totals
        (s.window_totals.getLastD 0 + motion - dropped)
  { buffer := buffer, motion_flags := motion_flags,
    window_totals := window_totals }

/-- ClipBuffer.append (detector.py lines 115-143): insert the pair, update
window_totals, then unconditionally run trim_start(2) with the default
threshold 0.1. -/
def append {α : Type} (L C : ℕ) (s : ClipBuffer α) (frame : α)
    (motion : ℚ) : ClipBuffer α :=
  trim_start 2 (1 / 10) (appendNoTrim L C s frame motion)

/-- Maximum of a nonempty list as Python's max computes it (0 is returned
for the empty list, which is unreachable since window_totals is never
empty). -/
def listMax : List ℚ → ℚ
  | [] => 0
  | x :: xs => xs.foldl max x

/-- ClipBuffer.is_ready (detector.py line 164): the frame deque holds
exactly its capacity C. -/
def is_ready {α : Type} (C : ℕ) (s : ClipBuffer α) : Prop :=
  s.buffer.length = C

instance {α : Type} (C : ℕ) (s : ClipBuffer α) : Decidable (is_ready C s) :=
  inferInstanceAs (Decidable (_ = _))

/-- ClipBuffer.motion_percent (detector.py line 161):
max(window_totals) / max_clip_length. -/
def motion_percent {α : Type} (L : ℕ) (s : ClipBuffer α) : ℚ :=
  listMax s.window_totals / L

/-- Index of the best window chosen by ClipBuffer.get_clip (detector.py
line 169): the first position of the maximum of window_totals, as computed
by Python's list.index. -/
def bestIdx {α : Type} (s : ClipBuffer α) : ℕ :=
  s.window_totals.findIdx (fun t => t = listMax s.window_totals)

/-- ClipBuffer.get_clip (detector.py lines 167-170): slice L frames from
the buffer starting at the first index of the maximal window total. -/
def get_clip {α : Type} (L : ℕ) (s : ClipBuffer α) : List α :=
  ((s.buffer).drop (bestIdx s)).take L

/-- Fold a list of (frame, score) pairs through ClipBuffer.append. -/
def runAppends {α : Type} (L C : ℕ) (s : ClipBuffer α)
    (inputs : List (α × ℚ)) : ClipBuffer α :=
  inputs.foldl (fun s i => append L C s i.1 i.2) s

end ClipBuffer

/-- Sum of the min(len, L) most recent motion scores held in a deque: the
reference value that the last entry of window_totals tracks. -/
def lastWindowSum (L : ℕ) (flags : List ℚ) : ℚ :=
  (flags.drop (flags.length - L)).sum

/-- Invariant of a ClipBuffer for window length L and buffer capacity C:
the score deque parallels the frame deque, the frame deque respects its
capacity, window_totals has exactly max(1, len(buffer) - L + 1) entries
(in particular it is never empty), and its last entry is the sum of the
min(len, L) most recent retained scores. -/
structure Inv {α : Type} (L C : ℕ) (s : ClipBuffer α) : Prop where
  align : s.motion_flags.length = s.buffer.length
  size : s.buffer.length ≤ C
  totals_len : s.window_totals.length = max 1 (s.buffer.length + 1 - L)
  totals_last : s.window_totals.getLast? = some (lastWindowSum L s.motion_flags)

/-- An operation on a ClipBuffer: an append of a (frame, score) pair, or a
call of trim_start with arbitrary arguments. -/
inductive BufOp (α : Type) where
  | app (frame : α) (motion : ℚ)
  | trim (frame_cnt : ℕ) (threshold : ℚ)

/-- Run a sequence of ClipBuffer operations from a given state. -/
def runOps {α : Type} (L C : ℕ) (s : ClipBuffer α) (ops : List (BufOp α)) :
    ClipBuffer α :=
  ops.foldl
    (fun s op =>
      match op with
      | .app f m => ClipBuffer.append L C s f m
      | .trim n t => ClipBuffer.trim_start n t s) s

/-- Number of leading scores strictly below the threshold, capped at the
given maximal count: the number of (frame, score) pairs one run of
trim_start evicts. -/
def lowPrefixCount (thr : ℚ) : ℕ → List ℚ → ℕ
  | 0, _ => 0
  | _ + 1, [] => 0
  | cap + 1, h :: t => if h < thr then lowPrefixCount thr cap t + 1 else 0

/-- Effect on window_totals of evicting the given scores from the front of
the buffer: per evicted score, drop the oldest window total while more
than one entry exists, otherwise subtract the score from the single
remaining entry. -/
def trimTotals (evicted : List ℚ) (totals : List ℚ) : List ℚ :=
  evicted.foldl
    (fun ts h =>
      if ts.length > 1 then ts.tail
      else
        match ts with
        | [] => []
        | t :: rest => (t - h) :: rest) totals

/-- The fields of AppConfig (config.py) that drive the Detector state
machine.  The window length is clip_seconds * fps, as in the ClipBuffer
constructor. -/
structure DetectorCfg where
  fps : ℕ
  clip_seconds : ℕ
  detection_frames_required : ℕ
  movement_level_required : ℚ
  cooldown_seconds : ℚ

/-- Window length of the detector's clip buffer (max_clip_length). -/
def DetectorCfg.L (cfg : DetectorCfg) : ℕ := cfg.clip_seconds * cfg.fps

/-- Capacity of the detector's clip buffer (deque maxlen). -/
def DetectorCfg.C (cfg : DetectorCfg) : ℕ := cfg.L + 120

/-- The three states of the Detector state machine (detector.py lines
185-187), with the cooldown state carrying cooldown_start (the time
recorded at the TRIGGERED to COOLDOWN transition). -/
inductive DetPhase where
  | idle
  | triggered
  | cooldown (cooldown_start : ℚ)
deriving DecidableEq

/-- Mutable state of the Detector thread: the machine state, the
hysteresis trigger_counter and the clip buffer. -/
structure DetState (α : Type) where
  phase : DetPhase
  trigger_counter : ℕ
  buffer : ClipBuffer α
deriving DecidableEq

/-- One cycle of input to the detector loop: the wall-clock time of the
cycle and, when the camera has a frame available, the frame together with
the movement boolean that _detect_movement computes from it (the OpenCV
background subtractor is external to the model).  A cycle with no frame
leaves the detector state untouched (detector.py lines 248-251). -/
structure DetCycle (α : Type) where
  now : ℚ
  frame : Option (α × Bool)
deriving DecidableEq

/-- One iteration of Detector.run (detector.py lines 242-305): if no frame
is available nothing changes; otherwise the frame and its movement score
are appended to the clip buffer and the state machine dispatches.  In
IDLE, the counter rises on movement and falls toward the floor 0
otherwise (Python max(0, c - 1) is truncated subtraction here), and a
trigger fires when the counter reaches detection_frames_required, the
buffer is ready and motion_percent reaches movement_level_required; the
machine then enters TRIGGERED with the counter reset.  TRIGGERED is a
one-cycle pass-through into COOLDOWN recording the current time.
COOLDOWN returns to IDLE, resetting the counter, once
cooldown_seconds have elapsed.  The returned boolean reports whether
_trigger_event fired this cycle. -/
def detectorStep {α : Type} (cfg : DetectorCfg) (s : DetState α)
    (inp : DetCycle α) : DetState α × Bool :=
  match inp.frame with
  | none => (s, false)
  | some (f, movement) =>
    let buf := ClipBuffer.append cfg.L cfg.C s.buffer f
      (if movement then 1 else 0)
    match s.phase with
    | .idle =>
      let c := if movement then s.trigger_counter + 1 else s.trigger_counter - 1
      if c ≥ cfg.detection_frames_required ∧ ClipBuffer.is_ready cfg.C buf
          ∧ ClipBuffer.motion_percent cfg.L buf ≥ cfg.movement_level_required
      then (⟨.triggered, 0, buf⟩, true)
      else (⟨.idle, c, buf⟩, false)
    | .triggered => (⟨.cooldown inp.now, s.trigger_counter, buf⟩, false)
    | .cooldown t0 =>
      if inp.now - t0 ≥ cfg.cooldown_seconds then (⟨.idle, 0, buf⟩, false)
      else (⟨.cooldown t0, s.trigger_counter, buf⟩, false)

/-- Run the detector loop over a list of cycles; the boolean reports
whether any cycle fired a trigger. -/
def detectorRun {α : Type} (cfg : DetectorCfg) (s : DetState α) :
    List (DetCycle α) → DetState α × Bool
  | [] => (s, false)
  | i :: rest =>
    let r := detectorStep cfg s i
    let r' := detectorRun cfg r.1 rest
    (r'.1, r.2 || r'.2)

/-- The times of the cycles at which the detector fires a trigger. -/
def firedTimes {α : Type} (cfg : DetectorCfg) (s : DetState α) :
    List (DetCycle α) → List ℚ
  | [] => []
  | i :: rest =>
    let r := detectorStep cfg s i
    (if r.2 then [i.now] else []) ++ firedTimes cfg r.1 rest

/-- Whether a list of booleans contains a run of at least N consecutive
true values (tracking the length of the current run of trues). -/
def hasTrueRun (N : ℕ) (l : List Bool) : Bool :=
  (l.foldl
    (fun acc b =>
      let c := if b then acc.2 + 1 else 0
      (acc.1 || decide (N ≤ c), c))
    (decide (N ≤ 0), 0)).1

/-- Number of cycles whose frame is present and movement-positive. -/
def countPositives {α : Type} (inputs : List (DetCycle α)) : ℕ :=
  inputs.countP
    (fun i =>
      match i.frame with
      | some (_, mv) => mv
      | none => false)

/-- The detector configuration of the concrete scenarios: fps 1,
clip_seconds 4 (window length 4, capacity 124), 3 consecutive detection
frames required, motion level 1/2 required, 20 seconds of cooldown. -/
def cfgC2 : DetectorCfg := ⟨1, 4, 3, 1 / 2, 20⟩

/-- The movement booleans of the C2 counterexample: one true cycle, then
41 blocks of false, true, true - 124 cycles with no run of 3 consecutive
positives in which positives always outnumber negatives two to one. -/
def c2Movements : List Bool :=
  true :: (List.replicate 41 [false, true, true]).flatten

/-- The C2 counterexample cycles: all at time 0, every frame present. -/
def c2Inputs : List (DetCycle ℕ) :=
  c2Movements.map (fun b => ⟨0, some (0, b)⟩)

/-- First 31 cycles of the C2 counterexample (one true, ten blocks). -/
def c2Chunk1 : List (DetCycle ℕ) :=
  (true :: (List.replicate 10 [false, true, true]).flatten).map
    (fun b => ⟨0, some (0, b)⟩)

/-- A block of further C2 counterexample cycles (m blocks of F, T, T). -/
def c2ChunkB (m : ℕ) : List (DetCycle ℕ) :=
  ((List.replicate m [false, true, true]).flatten).map
    (fun b => ⟨0, some (0, b)⟩)

/-- Detector state of the C2 counterexample run after 31 + 30 * k cycles
(k = 0, 1, 2): still Idle, the counter at 11 + 10 * k, the buffer holding
31 + 30 * k frames whose scores are one 1 followed by blocks of 0, 1, 1,
and the corresponding window totals. -/
def c2State (k : ℕ) : DetState ℕ :=
  ⟨.idle, 11 + 10 * k,
    ⟨List.replicate (31 + 30 * k) 0,
      (1 : ℚ) :: (List.replicate (10 + 10 * k) [(0 : ℚ), 1, 1]).flatten,
      (3 : ℚ) :: (2 : ℚ) ::
        ((List.replicate (8 + 10 * k) [(3 : ℚ), 3, 2]).flatten ++ [3, 3])⟩⟩

/-- Cycles 122 and 123 of the C2 counterexample run (false then true). -/
def c2Chunk5 : List (DetCycle ℕ) :=
  [⟨0, some (0, false)⟩, ⟨0, some (0, true)⟩]

/-- Clip buffer of the C2 counterexample run after 123 cycles: one frame
short of ready. -/
def c2B123 : ClipBuffer ℕ :=
  ⟨List.replicate 123 0,
    (1 : ℚ) :: ((List.replicate 40 [(0 : ℚ), 1, 1]).flatten ++ [0, 1]),
    (3 : ℚ) :: (2 : ℚ) ::
      ((List.replicate 39 [(3 : ℚ), 3, 2]).flatten ++ [3])⟩

/-- Detector state of the C2 counterexample run after 123 cycles. -/
def c2S123 : DetState ℕ := ⟨.idle, 41, c2B123⟩

/-- Clip buffer of the C2 counterexample run after the 124th append: full
(ready), with 121 window totals whose first entry is 3. -/
def c2Buf124 : ClipBuffer ℕ :=
  ⟨List.replicate 124 0,
    (1 : ℚ) :: (List.replicate 41 [(0 : ℚ), 1, 1]).flatten,
    (3 : ℚ) :: (2 : ℚ) ::
      ((List.replicate 39 [(3 : ℚ), 3, 2]).flatten ++ [3, 3])⟩

/-- Reconnection-relevant state of rtsp_camera.py's RTSPCameraCapture:
whether an opened capture handle is present (self.cap), the reconnection
attempt counter, the consecutive read-failure counter of the run loop,
the single latest-frame slot (frames abstracted as naturals; None when no
frame was ever published), and last_successful_frame_time. -/
structure CamState where
  cap : Bool
  reconnect_attempts : ℕ
  consecutive_failures : ℕ
  frame : Option ℕ
  last_success : ℚ
deriving DecidableEq

/-- One cycle of input to the capture loop: the wall-clock time, the
outcome of cap.read() if a handle is present (none is a failed read), and
whether a _connect call made during this cycle would succeed. -/
structure CamCycle where
  now : ℚ
  read : Option ℕ
  connectOk : Bool
deriving DecidableEq

/-- RTSPCameraCapture.get_frame (rtsp_camera.py lines 272-283): return a
copy of the latest-frame slot, or none if no frame was ever captured. -/
def CamState.get_frame (s : CamState) : Option ℕ := s.frame

/-- RTSPCameraCapture._reconnect (rtsp_camera.py lines 163-186) with the
_connect outcome supplied as input: refuse when the bounded attempt
budget is exhausted (max_reconnect_attempts > 0 and the counter has
reached it); otherwise count the attempt, release the handle, and call
_connect.  A successful _connect stores an opened handle and resets the
attempt counter; its verification frame read is discarded, never
published to the frame slot.  The boolean reports success. -/
def camReconnect (maxAttempts : ℤ) (connectOk : Bool) (s : CamState) :
    Bool × CamState :=
  if maxAttempts > 0 ∧ (s.reconnect_attempts : ℤ) ≥ maxAttempts then
    (false, s)
  else
    let s' : CamState :=
      { s with reconnect_attempts := s.reconnect_attempts + 1, cap := false }
    if connectOk then
      (true, { s' with cap := true, reconnect_attempts := 0 })
    else (false, s')

/-- One iteration of the while loop of RTSPCameraCapture.run
(rtsp_camera.py lines 203-262).  With a handle present, a successful read
resets the failure counter and publishes a copy of the frame; a failed
read counts a failure and, when the 30-second connection timeout or the
threshold of 10 consecutive failures is hit, attempts a reconnect,
breaking out of the loop if the reconnect fails with the attempt budget
exhausted.  With no handle present, cap.read() raises and the except
branch counts a failure and reconnects on the same threshold - without
resetting the failure counter on success.  The boolean reports that the
loop terminated (break). -/
def camStep (maxAttempts : ℤ) (s : CamState) (inp : CamCycle) :
    CamState × Bool :=
  if s.cap then
    match inp.read with
    | some fr =>
      ({ s with
          consecutive_failures := 0
          last_success := inp.now
          frame := some fr }, false)
    | none =>
      let s' : CamState :=
        { s with consecutive_failures := s.consecutive_failures + 1 }
      if inp.now - s'.last_success > 30 then
        let r := camReconnect maxAttempts inp.connectOk s'
        if r.1 then
          ({ r.2 with consecutive_failures := 0, last_success := inp.now },
            false)
        else if maxAttempts > 0 ∧ (r.2.reconnect_attempts : ℤ) ≥ maxAttempts
        then (r.2, true)
        else (r.2, false)
      else if s'.consecutive_failures ≥ 10 then
        let r := camReconnect maxAttempts inp.connectOk s'
        if r.1 then
          ({ r.2 with consecutive_failures := 0, last_success := inp.now },
            false)
        else if maxAttempts > 0 ∧ (r.2.reconnect_attempts : ℤ) ≥ maxAttempts
        then (r.2, true)
        else (r.2, false)
      else (s', false)
  else
    let s' : CamState :=
      { s with consecutive_failures := s.consecutive_failures + 1 }
    if s'.consecutive_failures ≥ 10 then
      let r := camReconnect maxAttempts inp.connectOk s'
      if r.1 then (r.2, false)
      else if maxAttempts > 0 ∧ (r.2.reconnect_attempts : ℤ) ≥ maxAttempts
      then (r.2, true)
      else (r.2, false)
    else (s', false)

/-- Run the capture loop over a list of cycles, stopping early when an
iteration breaks; the boolean reports whether the loop terminated. -/
def camRun (maxAttempts : ℤ) (s : CamState) : List CamCycle → CamState × Bool
  | [] => (s, false)
  | i :: rest =>
    let r := camStep maxAttempts s i
    if r.2 then (r.1, true) else camRun maxAttempts r.1 rest

/-- The C7 scenario start state: connected, no attempts or failures used,
frame 7 published before the connection was lost. -/
def c7Start : CamState := ⟨true, 0, 0, some 7, 0⟩

/-- The C7 scenario cycles: eleven cycles at time 0 in which every read
fails and every connection attempt fails. -/
def c7Inputs : List CamCycle := List.replicate 11 ⟨0, none, false⟩

/-- Phase of one clip-writing job (a Detector._write_clip thread):
not spawned, spawned but its body not yet scheduled, running (it has
executed is_recording = True), or completed. -/
inductive JobPhase where
  | notSpawned
  | spawned
  | running
  | done
deriving DecidableEq

/-- Shared state of the clip single-flight guard of detector.py: the
is_recording flag, the phases of the clip jobs of two triggers, which of
the two triggers are still pending, and the log of dropped clip
requests. -/
structure DispatchState where
  is_recording : Bool
  job1 : JobPhase
  job2 : JobPhase
  trig1_pending : Bool
  trig2_pending : Bool
  dropped : List ℕ
deriving DecidableEq

/-- Atomic actions of the interleaving of two trigger events with their
clip jobs.  fireTrigger k is the guard in Detector._trigger_event (lines
322-326): read is_recording; if set, log and drop the clip request (not
queued); otherwise spawn the detached _write_clip thread.  beginJob k is
the spawned thread executing is_recording = True (line 332).  finishJob k ok
is the job completing with success or failure; the finally block (lines
345-346) clears is_recording in either case. -/
inductive DispatchAct where
  | fireTrigger (k : Bool)
  | beginJob (k : Bool)
  | finishJob (k : Bool) (ok : Bool)
deriving DecidableEq

/-- Apply one atomic action to the dispatcher state; actions whose thread
is not at the right point are no-ops. -/
def dispatchStep (s : DispatchState) (a : DispatchAct) : DispatchState :=
  match a with
  | .fireTrigger k =>
    if (if k then s.trig2_pending else s.trig1_pending) then
      let s' := if k then { s with trig2_pending := false }
                else { s with trig1_pending := false }
      if s'.is_recording then
        { s' with dropped := s'.dropped ++ [if k then 2 else 1] }
      else if k then { s' with job2 := .spawned }
      else { s' with job1 := .spawned }
    else s
  | .beginJob k =>
    if (if k then s.job2 else s.job1) = JobPhase.spawned then
      if k then { s with job2 := .running, is_recording := true }
      else { s with job1 := .running, is_recording := true }
    else s
  | .finishJob k _ =>
    if (if k then s.job2 else s.job1) = JobPhase.running then
      if k then { s with job2 := .done, is_recording := false }
      else { s with job1 := .done, is_recording := false }
    else s

/-- Run a schedule of atomic actions from a state. -/
def dispatchRun (s : DispatchState) (acts : List DispatchAct) : DispatchState :=
  acts.foldl dispatchStep s

/-- Number of clip jobs in flight: spawned or running, not yet done. -/
def inFlight (s : DispatchState) : ℕ :=
  (if s.job1 = JobPhase.spawned ∨ s.job1 = JobPhase.running then 1 else 0)
    + (if s.job2 = JobPhase.spawned ∨ s.job2 = JobPhase.running then 1 else 0)

/-- Initial dispatcher state: flag clear, no jobs, both triggers
pending. -/
def dispatchInit : DispatchState :=
  ⟨false, .notSpawned, .notSpawned, true, true, []⟩

end Birdwatched

namespace Birdwatched

lemma pushCap_eq {β : Type} (cap : ℕ) (xs : List β) (x : β) :
    pushCap cap xs x = (if xs.length = cap then xs.tail else xs) ++ [x] := by
  unfold pushCap
  split <;> simp_all

lemma getLast?_tail_of_two {β : Type} {l : List β} (h : 2 ≤ l.length) :
    l.tail.getLast? = l.getLast? := by
  match l, h with
  | a :: b :: t, _ => simp [List.getLast?_cons_cons]

lemma lastWindowSum_of_le (L : ℕ) (flags : List ℚ) (h : flags.length ≤ L) :
    lastWindowSum L flags = flags.sum := by
  simp [lastWindowSum, Nat.sub_eq_zero_of_le h]

lemma lastWindowSum_tail (L : ℕ) (flags : List ℚ)
    (h : L + 1 ≤ flags.length) :
    lastWindowSum L flags.tail = lastWindowSum L flags := by
  unfold lastWindowSum
  rw [List.length_tail, ← List.drop_one, List.drop_drop]
  congr 2
  omega

lemma windowSum_append (L : ℕ) (g : List ℚ) (x : ℚ) (h : L ≤ g.length) :
    lastWindowSum L (g ++ [x])
      = lastWindowSum L g + x - (g ++ [x]).getD (g.length - L) 0 := by
  rcases Nat.eq_zero_or_pos L with hL0 | hL1
  · subst hL0
    have h1 : (g ++ [x]).length - 0 = g.length + 1 := by simp
    have h2 : (g ++ [x]).drop (g.length + 1) = [] := by
      apply List.drop_eq_nil_of_le
      simp
    have h3 : g.drop (g.length - 0) = [] := by
      simp [List.drop_length]
    have h4 : (g ++ [x]).getD (g.length - 0) 0 = x := by
      have hx : g.length - 0 < (g ++ [x]).length := by simp
      rw [List.getD_eq_getElem?_getD, List.getElem?_eq_getElem hx]
      simp
    unfold lastWindowSum
    rw [h1, h2, h3, h4]
    simp
  · have hidx : g.length - L < g.length := by omega
    have h1 : (g ++ [x]).length - L = g.length + 1 - L := by simp
    have h2 : g.length + 1 - L ≤ g.length := by omega
    have h3 : (g ++ [x]).drop (g.length + 1 - L)
        = g.drop (g.length + 1 - L) ++ [x] :=
      List.drop_append_of_le_length h2
    have h4 : g.drop (g.length - L) = g[g.length - L] :: g.drop (g.length - L + 1) :=
      List.drop_eq_getElem_cons hidx
    have h5 : g.length - L + 1 = g.length + 1 - L := by omega
    have h6 : (g ++ [x]).getD (g.length - L) 0 = g[g.length - L] := by
      rw [List.getD_eq_getElem?_getD, List.getElem?_append_left hidx,
        List.getElem?_eq_getElem hidx]
      rfl
    unfold lastWindowSum
    rw [h1, h3, h4, h5, h6, List.sum_append, List.sum_cons]
    simp only [List.sum_cons, List.sum_nil]
    ring

lemma inv_init {α : Type} (L C : ℕ) : Inv L C (ClipBuffer.init (α := α)) := by
  refine ⟨rfl, by simp [ClipBuffer.init], ?_, ?_⟩
  · simp [ClipBuffer.init]
  · simp [ClipBuffer.init, lastWindowSum]

lemma inv_appendNoTrim {α : Type} {L C : ℕ} (hLC : L < C)
    {s : ClipBuffer α} (hs : Inv L C s) (f : α) (m : ℚ) :
    Inv L C (ClipBuffer.appendNoTrim L C s f m) := by
  obtain ⟨halign, hsize, hlen, hlast⟩ := hs
  set mc := ClipBuffer.coerceScore m with hmc
  have hbuf : (ClipBuffer.appendNoTrim L C s f m).buffer = pushCap C s.buffer f := rfl
  have hflags : (ClipBuffer.appendNoTrim L C s f m).motion_flags
      = pushCap C s.motion_flags mc := rfl
  have htot : (ClipBuffer.appendNoTrim L C s f m).window_totals
      = if (pushCap C s.buffer f).length ≤ L then
          (match s.window_totals with
           | [] => []
           | t :: ts => (t + mc) :: ts)
        else
          pushCap (C - L + 1) s.window_totals
            (s.window_totals.getLastD 0 + mc
              - (pushCap C s.motion_flags mc).getD
                  ((pushCap C s.motion_flags mc).length - (L + 1)) 0) := rfl
  have hlastD : s.window_totals.getLastD 0 = lastWindowSum L s.motion_flags := by
    rw [List.getLastD_eq_getLast?, hlast]
    rfl
  by_cases hfull : s.buffer.length = C
  · -- the frame deque is full: both deques evict their oldest element
    have hC1 : 1 ≤ C := by omega
    have hpb : pushCap C s.buffer f = s.buffer.tail ++ [f] := by
      rw [pushCap_eq, if_pos hfull]
    have hpf : pushCap C s.motion_flags mc = s.motion_flags.tail ++ [mc] := by
      rw [pushCap_eq, if_pos (halign.trans hfull)]
    have hftl : s.motion_flags.tail.length = C - 1 := by
      rw [List.length_tail, halign, hfull]
    have hbl : (pushCap C s.buffer f).length = C := by
      rw [hpb, List.length_append, List.length_tail, hfull]
      simp only [List.length_cons, List.length_nil]
      omega
    have hnotle : ¬ (pushCap C s.buffer f).length ≤ L := by
      rw [hbl]
      omega
    have hfl : (pushCap C s.motion_flags mc).length = C := by
      rw [hpf, List.length_append, hftl]
      simp only [List.length_cons, List.length_nil]
      omega
    have htlen : s.window_totals.length = C + 1 - L := by
      rw [hlen, hfull]
      omega
    have hpt : pushCap (C - L + 1) s.window_totals
        (s.window_totals.getLastD 0 + mc
          - (pushCap C s.motion_flags mc).getD
              ((pushCap C s.motion_flags mc).length - (L + 1)) 0)
        = s.window_totals.tail ++ [s.window_totals.getLastD 0 + mc
            - (pushCap C s.motion_flags mc).getD
                ((pushCap C s.motion_flags mc).length - (L + 1)) 0] := by
      rw [pushCap_eq, if_pos]
      rw [htlen]
      omega
    have hidx : (pushCap C s.motion_flags mc).length - (L + 1)
        = s.motion_flags.tail.length - L := by
      rw [hfl, hftl]
      omega
    have hws := windowSum_append L s.motion_flags.tail mc (by rw [hftl]; omega)
    have htail := lastWindowSum_tail L s.motion_flags (by rw [halign, hfull]; omega)
    refine ⟨?_, ?_, ?_, ?_⟩
    · rw [hbuf, hflags, hfl, hbl]
    · rw [hbuf, hbl]
    · rw [hbuf, htot, if_neg hnotle, hpt, hbl]
      simp only [List.length_append, List.length_tail, List.length_cons,
        List.length_nil]
      rw [htlen]
      omega
    · rw [hflags, htot, if_neg hnotle, hpt, List.getLast?_concat, hidx,
        hlastD, ← htail, hpf, ← hws]
  · -- the frame deque is not yet full: plain appends at the right end
    have hnC : s.buffer.length < C := Nat.lt_of_le_of_ne hsize hfull
    have hpb : pushCap C s.buffer f = s.buffer ++ [f] := by
      rw [pushCap_eq, if_neg hfull]
    have hpf : pushCap C s.motion_flags mc = s.motion_flags ++ [mc] := by
      rw [pushCap_eq, if_neg (halign ▸ hfull)]
    have hbl : (pushCap C s.buffer f).length = s.buffer.length + 1 := by
      rw [hpb, List.length_append]
      rfl
    have hfl : (pushCap C s.motion_flags mc).length = s.buffer.length + 1 := by
      rw [hpf, List.length_append, halign]
      rfl
    by_cases hwarm : (pushCap C s.buffer f).length ≤ L
    · -- warm-up branch: a single growing total
      have hle : s.buffer.length + 1 ≤ L := hbl ▸ hwarm
      have htlen1 : s.window_totals.length = 1 := by
        rw [hlen]
        omega
      obtain ⟨t, ht⟩ := List.length_eq_one.mp htlen1
      have hsum : t = s.motion_flags.sum := by
        have := hlast
        rw [ht] at this
        simp at this
        rw [this, lastWindowSum_of_le L _ (by rw [halign]; omega)]
      refine ⟨?_, ?_, ?_, ?_⟩
      · rw [hbuf, hflags, hfl, hbl]
      · rw [hbuf, hbl]
        omega
      · rw [hbuf, htot, if_pos hwarm, ht, hbl]
        simp only [List.length_cons, List.length_nil]
        omega
      · rw [hflags, htot, if_pos hwarm, ht, hpf]
        rw [lastWindowSum_of_le L _
          (by simp only [List.length_append, List.length_cons, List.length_nil, halign]; omega),
          List.sum_append, hsum]
        simp
    · -- sliding branch: push a fresh total computed incrementally
      have hgt : L < s.buffer.length + 1 := by
        rw [hbl] at hwarm
        omega
      have hLn : L ≤ s.buffer.length := by omega
      have htlen : s.window_totals.length = s.buffer.length + 1 - L := by
        rw [hlen]
        omega
      have hpt : pushCap (C - L + 1) s.window_totals
          (s.window_totals.getLastD 0 + mc
            - (pushCap C s.motion_flags mc).getD
                ((pushCap C s.motion_flags mc).length - (L + 1)) 0)
          = s.window_totals ++ [s.window_totals.getLastD 0 + mc
              - (pushCap C s.motion_flags mc).getD
                  ((pushCap C s.motion_flags mc).length - (L + 1)) 0] := by
        rw [pushCap_eq, if_neg]
        rw [htlen]
        omega
      have hidx : (pushCap C s.motion_flags mc).length - (L + 1)
          = s.motion_flags.length - L := by
        rw [hfl, halign]
        omega
      have hws := windowSum_append L s.motion_flags mc (by rw [halign]; omega)
      refine ⟨?_, ?_, ?_, ?_⟩
      · rw [hbuf, hflags, hfl, hbl]
      · rw [hbuf, hbl]
        omega
      · rw [hbuf, htot, if_neg hwarm, hpt, hbl]
        simp only [List.length_append, List.length_cons, List.length_nil]
        rw [htlen]
        omega
      · rw [hflags, htot, if_neg hwarm, hpt, List.getLast?_concat, hidx,
          hlastD, hpf, ← hws]

lemma inv_trim_start {α : Type} {L C : ℕ} (cnt : ℕ) (thr : ℚ)
    {s : ClipBuffer α} (hs : Inv L C s) :
    Inv L C (ClipBuffer.trim_start cnt thr s) := by
  induction cnt generalizing s with
  | zero => exact hs
  | succ n ih =>
    rw [ClipBuffer.trim_start]
    by_cases hemp : s.buffer.isEmpty
    · rw [if_pos hemp]
      exact hs
    · rw [if_neg hemp]
      have hbne : s.buffer ≠ [] := by
        simpa [List.isEmpty_iff] using hemp
      have hb1 : 1 ≤ s.buffer.length := List.length_pos.mpr hbne
      obtain ⟨halign, hsize, hlen, hlast⟩ := hs
      have hfne : s.motion_flags ≠ [] := by
        intro h
        rw [h] at halign
        simp at halign
        omega
      obtain ⟨h0, rest, hflags⟩ := List.exists_cons_of_ne_nil hfne
      by_cases hthr : s.motion_flags.headD 0 ≥ thr
      · rw [if_pos hthr]
        exact ⟨halign, hsize, hlen, hlast⟩
      · rw [if_neg hthr]
        apply ih
        by_cases htl : s.window_totals.length > 1
        · -- more than one window total: drop the oldest one
          have hblen : L + 1 ≤ s.buffer.length := by
            rw [hlen] at htl
            omega
          refine ⟨?_, ?_, ?_, ?_⟩
          · simp [List.length_tail, halign]
          · simp only [List.length_tail]
            omega
          · rw [if_pos htl]
            simp only [List.length_tail, List.length_tail, hlen]
            omega
          · rw [if_pos htl, getLast?_tail_of_two (by rw [hlen]; omega), hlast,
              lastWindowSum_tail L s.motion_flags (by rw [halign]; omega)]
        · -- a single window total: subtract the evicted score from it
          have htl1 : s.window_totals.length = 1 := by
            rw [hlen]
            rw [hlen] at htl
            omega
          have hblenL : s.buffer.length ≤ L := by
            rw [hlen] at htl
            omega
          obtain ⟨t, ht⟩ := List.length_eq_one.mp htl1
          have hsum : t = s.motion_flags.sum := by
            have := hlast
            rw [ht] at this
            simp at this
            rw [this, lastWindowSum_of_le L _ (by rw [halign]; omega)]
          refine ⟨?_, ?_, ?_, ?_⟩
          · simp [List.length_tail, halign]
          · simp only [List.length_tail]
            omega
          · rw [if_neg htl, ht]
            simp only [List.length_tail, List.length_cons, List.length_nil]
            omega
          · rw [if_neg htl, ht]
            have hh : s.motion_flags.headD 0 = h0 := by
              rw [hflags]
              rfl
            have htail : s.motion_flags.tail = rest := by
              rw [hflags]
              rfl
            rw [hh, htail,
              lastWindowSum_of_le L rest (by
                have : s.motion_flags.length = rest.length + 1 := by
                  rw [hflags]
                  simp
                omega),
              hsum, hflags]
            simp

lemma inv_append {α : Type} {L C : ℕ} (hLC : L < C)
    {s : ClipBuffer α} (hs : Inv L C s) (f : α) (m : ℚ) :
    Inv L C (ClipBuffer.append L C s f m) :=
  inv_trim_start 2 (1 / 10) (inv_appendNoTrim hLC hs f m)

lemma inv_runAppends {α : Type} {L C : ℕ} (hLC : L < C)
    {s : ClipBuffer α} (hs : Inv L C s) (inputs : List (α × ℚ)) :
    Inv L C (ClipBuffer.runAppends L C s inputs) := by
  induction inputs generalizing s with
  | nil => exact hs
  | cons i rest ih => exact ih (inv_append hLC hs i.1 i.2)

lemma inv_runOps {α : Type} {L C : ℕ} (hLC : L < C)
    {s : ClipBuffer α} (hs : Inv L C s) (ops : List (BufOp α)) :
    Inv L C (runOps L C s ops) := by
  induction ops generalizing s with
  | nil => exact hs
  | cons op rest ih =>
    cases op with
    | app f m => exact ih (inv_append hLC hs f m)
    | trim n t => exact ih (inv_trim_start n t hs)

lemma foldl_max_mem (xs : List ℚ) (a : ℚ) :
    xs.foldl max a = a ∨ xs.foldl max a ∈ xs := by
  induction xs generalizing a with
  | nil => exact Or.inl rfl
  | cons x xs ih =>
    rw [List.foldl_cons]
    rcases ih (max a x) with h | h
    · rcases max_choice a x with h' | h'
      · left
        rw [h, h']
      · right
        rw [h, h']
        exact List.mem_cons_self x xs
    · exact Or.inr (List.mem_cons_of_mem x h)

lemma le_foldl_max (xs : List ℚ) (a : ℚ) :
    a ≤ xs.foldl max a ∧ ∀ x ∈ xs, x ≤ xs.foldl max a := by
  induction xs generalizing a with
  | nil => exact ⟨le_refl a, by simp⟩
  | cons x xs ih =>
    obtain ⟨h1, h2⟩ := ih (max a x)
    rw [List.foldl_cons]
    refine ⟨le_trans (le_max_left a x) h1, ?_⟩
    intro y hy
    rcases List.mem_cons.mp hy with rfl | hy
    · exact le_trans (le_max_right a y) h1
    · exact h2 y hy

lemma listMax_mem {l : List ℚ} (h : l ≠ []) : ClipBuffer.listMax l ∈ l := by
  match l, h with
  | x :: xs, _ =>
    rw [ClipBuffer.listMax]
    rcases foldl_max_mem xs x with h' | h'
    · rw [h']
      exact List.mem_cons_self x xs
    · exact List.mem_cons_of_mem x h'

lemma le_listMax {l : List ℚ} {x : ℚ} (h : x ∈ l) : x ≤ ClipBuffer.listMax l := by
  match l, h with
  | y :: ys, h =>
    rw [ClipBuffer.listMax]
    rcases List.mem_cons.mp h with rfl | h'
    · exact (le_foldl_max ys x).1
    · exact (le_foldl_max ys y).2 x h'

lemma lowPrefixCount_le (thr : ℚ) (cap : ℕ) (l : List ℚ) :
    lowPrefixCount thr cap l ≤ cap := by
  induction cap generalizing l with
  | zero => rw [lowPrefixCount]
  | succ n ih =>
    cases l with
    | nil =>
      rw [lowPrefixCount]
      omega
    | cons h t =>
      rw [lowPrefixCount]
      split
      · have := ih t
        omega
      · omega

lemma trim_start_eq_drop {α : Type} (cnt : ℕ) (thr : ℚ) :
    ∀ (s : ClipBuffer α),
    s.motion_flags.length = s.buffer.length →
    ClipBuffer.trim_start cnt thr s =
      { buffer := s.buffer.drop (lowPrefixCount thr cnt s.motion_flags)
        motion_flags :=
          s.motion_flags.drop (lowPrefixCount thr cnt s.motion_flags)
        window_totals :=
          trimTotals (s.motion_flags.take (lowPrefixCount thr cnt s.motion_flags))
            s.window_totals } := by
  induction cnt with
  | zero =>
    intro s _
    rw [ClipBuffer.trim_start, lowPrefixCount]
    simp [trimTotals]
  | succ n ih =>
    intro s halign
    rcases s with ⟨b, fl, tt⟩
    simp only at halign
    rw [ClipBuffer.trim_start]
    cases fl with
    | nil =>
      have hbuf : b = [] := by
        simp at halign
        exact List.length_eq_zero.mp halign.symm
      subst hbuf
      simp [lowPrefixCount, trimTotals]
    | cons h0 rest =>
      have hbne : ¬ (ClipBuffer.mk b (h0 :: rest) tt).buffer.isEmpty = true := by
        simp only
        rw [List.isEmpty_iff]
        intro hb
        rw [hb] at halign
        simp at halign
      rw [if_neg hbne]
      simp only [List.headD_cons]
      by_cases hthr : h0 < thr
      · rw [if_neg (not_le.mpr hthr)]
        rw [ih _ (by simp only [List.length_tail]; omega)]
        rw [lowPrefixCount, if_pos hthr]
        simp only [ClipBuffer.mk.injEq, List.tail_cons]
        refine ⟨?_, ?_, ?_⟩
        · rw [← List.drop_one, List.drop_drop]
          congr 1
          omega
        · rw [List.drop_succ_cons]
        · rw [List.take_succ_cons]
          simp only [trimTotals, List.foldl_cons]
      · rw [if_pos (le_of_not_lt hthr), lowPrefixCount, if_neg hthr]
        simp [trimTotals]

unseal Rat.add Rat.sub Rat.mul Rat.inv in
/-- C1 (counterexample): the claim fails as stated, because append ends
with an unconditional trim_start(2) call that can evict a just-appended
low score and subtract it from the running total.  A fresh ClipBuffer with
L = 4 (fps = 1, clip_seconds = 4, capacity 124) fed the single in-range
score 1/16 ends with last window total 0, while the sum of the most recent
min(1, 4) appended scores is 1/16. -/
theorem C1_counterexample :
    (0 ≤ (1 / 16 : ℚ) ∧ (1 / 16 : ℚ) ≤ 1) ∧
    (ClipBuffer.runAppends 4 124 (ClipBuffer.init (α := ℕ))
        [(0, 1 / 16)]).window_totals.getLastD 0 = 0 ∧
    (ClipBuffer.runAppends 4 124 (ClipBuffer.init (α := ℕ))
        [(0, 1 / 16)]).window_totals.getLastD 0 ≠ 1 / 16 := by
  refine ⟨by norm_num, by decide, by decide⟩

/-- C1 (amended): for every sequence of appended (frame, score) pairs,
after each append to a ClipBuffer with window length L (capacity L + 120
as built by the constructor), the last entry of window_totals equals the
exact sum of the most recent min(r, L) RETAINED scores, where r is the
number of scores currently held in motion_flags - appends net of the
front-trimming evictions - with no drift from the incremental update. -/
theorem C1_windowTotals_tracks_retained {α : Type} (L : ℕ)
    (inputs : List (α × ℚ)) :
    (ClipBuffer.runAppends L (L + 120) ClipBuffer.init inputs).window_totals.getLastD 0
      = lastWindowSum L
          (ClipBuffer.runAppends L (L + 120) ClipBuffer.init inputs).motion_flags := by
  have h := (inv_runAppends (by omega) (inv_init L (L + 120)) inputs).totals_last
  rw [List.getLastD_eq_getLast?, h]
  rfl

/-- C9: for every sequence of ClipBuffer operations (construction, append,
trim_start with arbitrary arguments), window_totals is never empty and its
length equals max(1, len(buffer) - L + 1); hence the maximum taken by
motion_percent is over a nonempty deque, and whenever the buffer holds at
least one full window the index chosen by get_clip starts a window that
lies entirely within the retained buffer. -/
theorem C9_windowTotals_shape {α : Type} (L : ℕ) (ops : List (BufOp α)) :
    (runOps L (L + 120) ClipBuffer.init ops).window_totals ≠ [] ∧
    (runOps L (L + 120) ClipBuffer.init ops).window_totals.length
      = max 1 ((runOps L (L + 120) ClipBuffer.init ops).buffer.length + 1 - L) ∧
    (L ≤ (runOps L (L + 120) ClipBuffer.init ops).buffer.length →
      ClipBuffer.bestIdx (runOps L (L + 120) ClipBuffer.init ops) + L
        ≤ (runOps L (L + 120) ClipBuffer.init ops).buffer.length) := by
  have hinv := inv_runOps (by omega) (inv_init (α := α) L (L + 120)) ops
  have hne : (runOps L (L + 120) ClipBuffer.init ops).window_totals ≠ [] := by
    apply List.ne_nil_of_length_pos
    rw [hinv.totals_len]
    omega
  refine ⟨hne, hinv.totals_len, ?_⟩
  intro hL
  have hlt : ClipBuffer.bestIdx (runOps L (L + 120) ClipBuffer.init ops)
      < (runOps L (L + 120) ClipBuffer.init ops).window_totals.length := by
    apply List.findIdx_lt_length_of_exists
    exact ⟨_, listMax_mem hne, by simp⟩
  rw [hinv.totals_len] at hlt
  omega

unseal Rat.add Rat.sub Rat.mul Rat.inv in
/-- C9 (witness): a concrete instance, L = 1 and a single append of score
1, at which all three parts of the shape property hold with the window
inside the buffer. -/
theorem C9_witness :
    (runOps 1 121 (ClipBuffer.init (α := ℕ)) [BufOp.app 0 1]).window_totals ≠ [] ∧
    (runOps 1 121 (ClipBuffer.init (α := ℕ)) [BufOp.app 0 1]).window_totals.length
      = max 1 ((runOps 1 121 (ClipBuffer.init (α := ℕ)) [BufOp.app 0 1]).buffer.length + 1 - 1) ∧
    ClipBuffer.bestIdx (runOps 1 121 (ClipBuffer.init (α := ℕ)) [BufOp.app 0 1]) + 1
      ≤ (runOps 1 121 (ClipBuffer.init (α := ℕ)) [BufOp.app 0 1]).buffer.length := by
  have h := C9_windowTotals_shape (α := ℕ) 1 [BufOp.app 0 1]
  exact ⟨h.1, h.2.1, h.2.2 (by decide)⟩

/-- C4: whenever is_ready holds for a reachable ClipBuffer state (the
buffer holds exactly C = L + 120 frames), get_clip returns exactly L
consecutive frames of the buffer starting at the index of the maximum
value in window_totals, choosing the first occurrence of the maximum on
ties: the chosen index carries the maximal total, every strictly earlier
index carries a strictly smaller total, and the returned slice has length
exactly L. -/
theorem C4_get_clip_best_window {α : Type} (L : ℕ) (s : ClipBuffer α)
    (hreach : ∃ inputs,
      s = ClipBuffer.runAppends L (L + 120) ClipBuffer.init inputs)
    (hready : ClipBuffer.is_ready (L + 120) s) :
    (ClipBuffer.get_clip L s).length = L ∧
    ClipBuffer.get_clip L s = (s.buffer.drop (ClipBuffer.bestIdx s)).take L ∧
    ClipBuffer.bestIdx s < s.window_totals.length ∧
    s.window_totals.getD (ClipBuffer.bestIdx s) 0
      = ClipBuffer.listMax s.window_totals ∧
    (∀ j, j < ClipBuffer.bestIdx s →
      s.window_totals.getD j 0 < ClipBuffer.listMax s.window_totals) := by
  obtain ⟨inputs, rfl⟩ := hreach
  set s := ClipBuffer.runAppends L (L + 120) ClipBuffer.init inputs with hs
  have hinv := inv_runAppends (by omega) (inv_init (α := α) L (L + 120)) inputs
  have hblen : s.buffer.length = L + 120 := hready
  have htlen : s.window_totals.length = 121 := by
    rw [hinv.totals_len, hblen]
    omega
  have hne : s.window_totals ≠ [] := by
    apply List.ne_nil_of_length_pos
    omega
  have hlt : ClipBuffer.bestIdx s < s.window_totals.length := by
    apply List.findIdx_lt_length_of_exists
    exact ⟨_, listMax_mem hne, by simp⟩
  refine ⟨?_, rfl, hlt, ?_, ?_⟩
  · rw [ClipBuffer.get_clip, List.length_take, List.length_drop, hblen]
    rw [htlen] at hlt
    omega
  · have hp := List.findIdx_getElem (w := hlt)
    have := of_decide_eq_true hp
    rw [List.getD_eq_getElem?_getD,
      List.getElem?_eq_getElem hlt]
    exact this
  · intro j hj
    have hjlt : j < s.window_totals.length := lt_trans hj hlt
    have hne' := List.not_of_lt_findIdx hj
    have hneq : s.window_totals[j] ≠ ClipBuffer.listMax s.window_totals := by
      intro h
      rw [h] at hne'
      simp at hne'
    have hle := le_listMax (List.getElem_mem hjlt)
    rw [List.getD_eq_getElem?_getD, List.getElem?_eq_getElem hjlt]
    exact lt_of_le_of_ne hle hneq

set_option maxRecDepth 100000 in
unseal Rat.add Rat.sub Rat.mul Rat.inv in
/-- C4 (witness): a concrete ready buffer, L = 4 and 124 appends of score
1, at which get_clip returns 4 frames starting at the first maximal window
total. -/
theorem C4_witness :
    ClipBuffer.is_ready 124
      (ClipBuffer.runAppends 4 124 (ClipBuffer.init (α := ℕ))
        (List.replicate 124 (0, 1))) ∧
    (ClipBuffer.get_clip 4
      (ClipBuffer.runAppends 4 124 (ClipBuffer.init (α := ℕ))
        (List.replicate 124 (0, 1)))).length = 4 := by
  have h := C4_get_clip_best_window 4
    (ClipBuffer.runAppends 4 124 (ClipBuffer.init (α := ℕ))
      (List.replicate 124 (0, 1)))
    ⟨List.replicate 124 (0, 1), rfl⟩ (by decide)
  exact ⟨by decide, h.1⟩

/-- C6: for every ClipBuffer state and every motion score outside 0..1,
append(frame, score) produces exactly the same state - same buffer
contents, same motion score deque, same window_totals - as append(frame, 0)
from the same state: out-of-range scores are coerced to 0 before
insertion. -/
theorem C6_out_of_range_coerced {α : Type} (L C : ℕ) (s : ClipBuffer α)
    (f : α) (m : ℚ) (h : m < 0 ∨ m > 1) :
    ClipBuffer.append L C s f m = ClipBuffer.append L C s f 0 := by
  have h1 : ClipBuffer.coerceScore m = 0 := by
    rw [ClipBuffer.coerceScore, if_pos (h.elim Or.inr Or.inl)]
  have h2 : ClipBuffer.coerceScore 0 = 0 := by
    rw [ClipBuffer.coerceScore, if_neg (by norm_num)]
  simp only [ClipBuffer.append, ClipBuffer.appendNoTrim, h1, h2]

/-- C6 (witness): the out-of-range score 2 appended to a fresh buffer with
L = 4 yields the same state as appending 0. -/
theorem C6_witness :
    ((2 : ℚ) < 0 ∨ (2 : ℚ) > 1) ∧
    ClipBuffer.append 4 124 (ClipBuffer.init (α := ℕ)) 0 2
      = ClipBuffer.append 4 124 (ClipBuffer.init (α := ℕ)) 0 0 :=
  ⟨Or.inr (by norm_num),
    C6_out_of_range_coerced 4 124 (ClipBuffer.init (α := ℕ)) 0 2
      (Or.inr (by norm_num))⟩

/-- C10: front-trimming is not optional - every call of append, after
inserting the new pair and updating window_totals, evicts from the front
exactly the number of oldest (frame, score) pairs given by the leading run
of scores below the fixed threshold 0.1 capped at 2 (so it stops at the
first score at least 0.1 or at an empty buffer, and never removes more
than 2 pairs), dropping the oldest window total per evicted pair while
more than one remains and otherwise subtracting the evicted score from the
single remaining entry. -/
theorem C10_append_always_trims {α : Type} (L C : ℕ) (s : ClipBuffer α)
    (f : α) (m : ℚ)
    (halign : s.motion_flags.length = s.buffer.length) :
    ClipBuffer.append L C s f m =
      { buffer := (ClipBuffer.appendNoTrim L C s f m).buffer.drop
          (lowPrefixCount (1 / 10) 2
            (ClipBuffer.appendNoTrim L C s f m).motion_flags)
        motion_flags := (ClipBuffer.appendNoTrim L C s f m).motion_flags.drop
          (lowPrefixCount (1 / 10) 2
            (ClipBuffer.appendNoTrim L C s f m).motion_flags)
        window_totals := trimTotals
          ((ClipBuffer.appendNoTrim L C s f m).motion_flags.take
            (lowPrefixCount (1 / 10) 2
              (ClipBuffer.appendNoTrim L C s f m).motion_flags))
          (ClipBuffer.appendNoTrim L C s f m).window_totals } ∧
    lowPrefixCount (1 / 10) 2
      (ClipBuffer.appendNoTrim L C s f m).motion_flags ≤ 2 := by
  constructor
  · rw [ClipBuffer.append]
    apply trim_start_eq_drop
    have hb : (ClipBuffer.appendNoTrim L C s f m).buffer
        = pushCap C s.buffer f := rfl
    have hf : (ClipBuffer.appendNoTrim L C s f m).motion_flags
        = pushCap C s.motion_flags (ClipBuffer.coerceScore m) := rfl
    rw [hb, hf, pushCap_eq, pushCap_eq, halign]
    by_cases hc : s.buffer.length = C
    · rw [if_pos hc, if_pos hc]
      simp [List.length_tail, halign]
    · rw [if_neg hc, if_neg hc]
      simp [halign]
  · exact lowPrefixCount_le _ _ _

/-- C10 (witness): appending score 0 to a fresh aligned buffer with L = 4
trims the single just-appended zero-score pair, matching the
characterization. -/
theorem C10_witness :
    (ClipBuffer.init (α := ℕ)).motion_flags.length
      = (ClipBuffer.init (α := ℕ)).buffer.length ∧
    ClipBuffer.append 4 124 (ClipBuffer.init (α := ℕ)) 0 0 =
      { buffer := (ClipBuffer.appendNoTrim 4 124 (ClipBuffer.init (α := ℕ)) 0 0).buffer.drop
          (lowPrefixCount (1 / 10) 2
            (ClipBuffer.appendNoTrim 4 124 (ClipBuffer.init (α := ℕ)) 0 0).motion_flags)
        motion_flags := (ClipBuffer.appendNoTrim 4 124 (ClipBuffer.init (α := ℕ)) 0 0).motion_flags.drop
          (lowPrefixCount (1 / 10) 2
            (ClipBuffer.appendNoTrim 4 124 (ClipBuffer.init (α := ℕ)) 0 0).motion_flags)
        window_totals := trimTotals
          ((ClipBuffer.appendNoTrim 4 124 (ClipBuffer.init (α := ℕ)) 0 0).motion_flags.take
            (lowPrefixCount (1 / 10) 2
              (ClipBuffer.appendNoTrim 4 124 (ClipBuffer.init (α := ℕ)) 0 0).motion_flags))
          (ClipBuffer.appendNoTrim 4 124 (ClipBuffer.init (α := ℕ)) 0 0).window_totals } :=
  ⟨rfl,
    (C10_append_always_trims 4 124 (ClipBuffer.init (α := ℕ)) 0 0 rfl).1⟩

lemma detectorStep_idle_true {α : Type} (cfg : DetectorCfg) (c : ℕ)
    (b : ClipBuffer α) (t : ℚ) (f : α) :
    detectorStep cfg ⟨.idle, c, b⟩ ⟨t, some (f, true)⟩
      = (if c + 1 ≥ cfg.detection_frames_required
            ∧ ClipBuffer.is_ready cfg.C (ClipBuffer.append cfg.L cfg.C b f 1)
            ∧ ClipBuffer.motion_percent cfg.L
                (ClipBuffer.append cfg.L cfg.C b f 1)
              ≥ cfg.movement_level_required
         then (⟨.triggered, 0, ClipBuffer.append cfg.L cfg.C b f 1⟩, true)
         else (⟨.idle, c + 1, ClipBuffer.append cfg.L cfg.C b f 1⟩, false)) :=
  rfl

lemma detectorStep_idle_false {α : Type} (cfg : DetectorCfg) (c : ℕ)
    (b : ClipBuffer α) (t : ℚ) (f : α) :
    detectorStep cfg ⟨.idle, c, b⟩ ⟨t, some (f, false)⟩
      = (if c - 1 ≥ cfg.detection_frames_required
            ∧ ClipBuffer.is_ready cfg.C (ClipBuffer.append cfg.L cfg.C b f 0)
            ∧ ClipBuffer.motion_percent cfg.L
                (ClipBuffer.append cfg.L cfg.C b f 0)
              ≥ cfg.movement_level_required
         then (⟨.triggered, 0, ClipBuffer.append cfg.L cfg.C b f 0⟩, true)
         else (⟨.idle, c - 1, ClipBuffer.append cfg.L cfg.C b f 0⟩, false)) :=
  rfl

lemma detectorRun_idle_few_positives {α : Type} (cfg : DetectorCfg) :
    ∀ (inputs : List (DetCycle α)) (c : ℕ) (buf : ClipBuffer α),
    c + countPositives inputs < cfg.detection_frames_required →
    (detectorRun cfg ⟨.idle, c, buf⟩ inputs).2 = false := by
  intro inputs
  induction inputs with
  | nil =>
    intro c buf _
    rfl
  | cons i rest ih =>
    intro c buf h
    obtain ⟨tn, tfr⟩ := i
    rcases tfr with _ | ⟨f, mv⟩
    · have hcp : countPositives ((⟨tn, none⟩ : DetCycle α) :: rest)
          = countPositives rest := by
        simp [countPositives, List.countP_cons]
      rw [hcp] at h
      rw [detectorRun]
      have hstep : detectorStep cfg ⟨.idle, c, buf⟩ ⟨tn, none⟩
          = (⟨.idle, c, buf⟩, false) := rfl
      rw [hstep]
      simp only [Bool.false_or]
      exact ih c buf (by omega)
    · cases mv with
      | true =>
        have hcp : countPositives ((⟨tn, some (f, true)⟩ : DetCycle α) :: rest)
            = countPositives rest + 1 := by
          simp [countPositives, List.countP_cons]
        rw [hcp] at h
        rw [detectorRun, detectorStep_idle_true, if_neg
          (fun hand => absurd hand.1 (by omega))]
        simp only [Bool.false_or]
        exact ih (c + 1) _ (by omega)
      | false =>
        have hcp : countPositives ((⟨tn, some (f, false)⟩ : DetCycle α) :: rest)
            = countPositives rest := by
          simp [countPositives, List.countP_cons]
        rw [hcp] at h
        rw [detectorRun, detectorStep_idle_false, if_neg
          (fun hand => absurd hand.1 (by omega))]
        simp only [Bool.false_or]
        exact ih (c - 1) _ (by omega)

lemma detectorRun_append {α : Type} (cfg : DetectorCfg) (s : DetState α)
    (l1 l2 : List (DetCycle α)) :
    detectorRun cfg s (l1 ++ l2)
      = ((detectorRun cfg (detectorRun cfg s l1).1 l2).1,
         (detectorRun cfg s l1).2
           || (detectorRun cfg (detectorRun cfg s l1).1 l2).2) := by
  induction l1 generalizing s with
  | nil => simp [detectorRun]
  | cons i rest ih =>
    rw [List.cons_append, detectorRun, detectorRun, ih]
    simp [Bool.or_assoc]

set_option maxRecDepth 40000 in
unseal Rat.add Rat.sub Rat.mul Rat.inv in
lemma c2_append_124 :
    ClipBuffer.append cfgC2.L cfgC2.C c2B123 0 (1 : ℚ) = c2Buf124 := by
  decide

set_option maxRecDepth 40000 in
/-- The firing cycle of the C2 counterexample: from the state reached
after 123 cycles, one more movement-positive cycle trips the trigger -
the counter reaches 42, the buffer is full, and the motion percentage is
at least 3/4 because some window total equals 3. -/
lemma c2_fire_step :
    (detectorStep cfgC2 c2S123 (⟨0, some (0, true)⟩ : DetCycle ℕ)).2
      = true := by
  have habuf : ClipBuffer.append cfgC2.L cfgC2.C c2B123 0 (1 : ℚ)
      = c2Buf124 := c2_append_124
  have h3mem : (3 : ℚ) ∈ c2Buf124.window_totals := List.mem_cons_self 3 _
  have hmax := le_listMax h3mem
  have hpct : ClipBuffer.motion_percent cfgC2.L c2Buf124
      ≥ cfgC2.movement_level_required := by
    have hL : ((cfgC2.L : ℕ) : ℚ) = 4 := by norm_num [DetectorCfg.L, cfgC2]
    have hlvl : cfgC2.movement_level_required = 1 / 2 := rfl
    rw [ClipBuffer.motion_percent, hL, hlvl]
    linarith
  have hS : c2S123 = ⟨.idle, 41, c2B123⟩ := rfl
  rw [hS, detectorStep_idle_true, habuf, if_pos ⟨by decide, by decide, hpct⟩]

set_option maxRecDepth 40000 in
unseal Rat.add Rat.sub Rat.mul Rat.inv in
/-- C2 (counterexample): the claim fails as stated.  With
requiredConsecutiveFrames = 3 the 124-cycle movement sequence true then
41 blocks of (false, true, true) contains no run of 3 consecutive
positive cycles, yet the detector started in Idle with a fresh buffer
fires a trigger at cycle 124: the hysteresis counter falls by only one
on each negative cycle, so interleaved positives accumulate past the
threshold while the buffer fills and its motion percentage exceeds 1/2.
The run is evaluated in chunks through explicit intermediate states,
with the firing cycle handled symbolically. -/
theorem C2_counterexample :
    hasTrueRun 3 c2Movements = false ∧
    (detectorRun cfgC2
      (⟨.idle, 0, ClipBuffer.init⟩ : DetState ℕ) c2Inputs).2 = true := by
  constructor
  · decide
  · have hsplit : c2Inputs
        = c2Chunk1 ++ (c2ChunkB 10 ++ (c2ChunkB 10 ++ (c2ChunkB 10
            ++ (c2Chunk5 ++ [⟨0, some (0, true)⟩])))) := by
      decide
    have h1 : detectorRun cfgC2
        (⟨.idle, 0, ClipBuffer.init⟩ : DetState ℕ) c2Chunk1
        = (c2State 0, false) := by
      decide
    have h2 : detectorRun cfgC2 (c2State 0) (c2ChunkB 10)
        = (c2State 1, false) := by
      decide
    have h3 : detectorRun cfgC2 (c2State 1) (c2ChunkB 10)
        = (c2State 2, false) := by
      decide
    have h4 : detectorRun cfgC2 (c2State 2) (c2ChunkB 10)
        = (c2State 3, false) := by
      decide
    have h5 : detectorRun cfgC2 (c2State 3) c2Chunk5
        = (c2S123, false) := by
      decide
    have h6 : (detectorRun cfgC2 c2S123 [⟨0, some (0, true)⟩]).2 = true := by
      rw [detectorRun, detectorRun]
      simp [c2_fire_step]
    rw [hsplit]
    simp only [detectorRun_append, h1, h2, h3, h4, h5]
    simp [h6]

/-- C2 (amended): the hysteresis guarantee the code actually provides is
counting-based, not run-based: started in Idle with the counter at 0, the
detector never fires a trigger on any input in which the total number of
movement-positive cycles stays below requiredConsecutiveFrames, whatever
the interleaving with negative cycles and whatever the buffer state. -/
theorem C2_few_positives_never_fire {α : Type} (cfg : DetectorCfg)
    (inputs : List (DetCycle α)) (buf : ClipBuffer α)
    (h : countPositives inputs < cfg.detection_frames_required) :
    (detectorRun cfg ⟨.idle, 0, buf⟩ inputs).2 = false :=
  detectorRun_idle_few_positives cfg inputs 0 buf (by omega)

unseal Rat.add Rat.sub Rat.mul Rat.inv in
/-- C2 (witness): two positive cycles with threshold 3 fire nothing. -/
theorem C2_witness :
    countPositives (α := ℕ)
        [⟨0, some (0, true)⟩, ⟨1, some (0, true)⟩]
      < cfgC2.detection_frames_required ∧
    (detectorRun cfgC2 (⟨.idle, 0, ClipBuffer.init⟩ : DetState ℕ)
      [⟨0, some (0, true)⟩, ⟨1, some (0, true)⟩]).2 = false :=
  ⟨by decide,
    C2_few_positives_never_fire cfgC2
      [⟨0, some (0, true)⟩, ⟨1, some (0, true)⟩] ClipBuffer.init (by decide)⟩

lemma firedTimes_subset_times {α : Type} (cfg : DetectorCfg) :
    ∀ (inputs : List (DetCycle α)) (s : DetState α) (t : ℚ),
    t ∈ firedTimes cfg s inputs → t ∈ inputs.map DetCycle.now := by
  intro inputs
  induction inputs with
  | nil =>
    intro s t h
    rw [firedTimes] at h
    simp at h
  | cons i rest ih =>
    intro s t h
    rw [firedTimes] at h
    rw [List.map_cons]
    rcases List.mem_append.mp h with h1 | h2
    · by_cases hf : (detectorStep cfg s i).2
      · simp [hf] at h1
        rw [h1]
        exact List.mem_cons_self _ _
      · simp [hf] at h1
    · exact List.mem_cons_of_mem _ (ih _ t h2)

lemma cooldown_no_early_fire {α : Type} (cfg : DetectorCfg) :
    ∀ (inputs : List (DetCycle α)),
    inputs.Pairwise (fun a b => a.now ≤ b.now) →
    ∀ (t0 : ℚ) (c : ℕ) (buf : ClipBuffer α) (t : ℚ),
    t ∈ firedTimes cfg ⟨.cooldown t0, c, buf⟩ inputs →
    t0 + cfg.cooldown_seconds ≤ t := by
  intro inputs
  induction inputs with
  | nil =>
    intro _ t0 c buf t h
    rw [firedTimes] at h
    simp at h
  | cons i rest ih =>
    intro hpw t0 c buf t h
    obtain ⟨hi, hrest⟩ := List.pairwise_cons.mp hpw
    rcases hfr : i.frame with _ | ⟨f, mv⟩
    · have hstep : detectorStep cfg ⟨.cooldown t0, c, buf⟩ i
          = (⟨.cooldown t0, c, buf⟩, false) := by
        simp [detectorStep, hfr]
      rw [firedTimes, hstep] at h
      simp at h
      exact ih hrest t0 c buf t h
    · by_cases hcd : i.now - t0 ≥ cfg.cooldown_seconds
      · have hstep : detectorStep cfg ⟨.cooldown t0, c, buf⟩ i
            = (⟨.idle, 0, ClipBuffer.append cfg.L cfg.C buf f
                (if mv then 1 else 0)⟩, false) := by
          simp [detectorStep, hfr, hcd]
        rw [firedTimes, hstep] at h
        simp at h
        have ht := firedTimes_subset_times cfg rest _ t h
        obtain ⟨j, hj, rfl⟩ := List.mem_map.mp ht
        have hij : i.now ≤ j.now := hi j hj
        linarith
      · have hstep : detectorStep cfg ⟨.cooldown t0, c, buf⟩ i
            = (⟨.cooldown t0, c, ClipBuffer.append cfg.L cfg.C buf f
                (if mv then 1 else 0)⟩, false) := by
          simp [detectorStep, hfr, hcd]
        rw [firedTimes, hstep] at h
        simp at h
        exact ih hrest t0 c _ t h

/-- C3: after a trigger fires the machine is in Triggered; fed any
sequence of cycles with frames present and nondecreasing times, it (a)
passes through Triggered in exactly one cycle, entering Cooldown with
cooldown_start set to that cycle's time and firing nothing, (b) fires no
trigger at any cycle whose time has not reached cooldown_start plus
cooldownSeconds - regardless of the motion input in between - and (c)
from Cooldown, any cycle before the elapsed-time condition leaves the
machine in Cooldown with the counter untouched, while the first cycle
satisfying it resets the trigger counter to 0 and returns to Idle. -/
theorem C3_cooldown_blocks_retrigger {α : Type} (cfg : DetectorCfg)
    (c : ℕ) (buf : ClipBuffer α) (i : DetCycle α) (rest : List (DetCycle α))
    (hpres : ∀ j ∈ i :: rest, (DetCycle.frame j).isSome)
    (hmono : (i :: rest).Pairwise (fun a b => a.now ≤ b.now)) :
    ((detectorStep cfg ⟨.triggered, c, buf⟩ i).1.phase = .cooldown i.now ∧
      (detectorStep cfg ⟨.triggered, c, buf⟩ i).2 = false) ∧
    (∀ t ∈ firedTimes cfg ⟨.triggered, c, buf⟩ (i :: rest),
      i.now + cfg.cooldown_seconds ≤ t) ∧
    (∀ (t0 : ℚ) (c' : ℕ) (buf' : ClipBuffer α) (j : DetCycle α)
        (f : α) (mv : Bool), j.frame = some (f, mv) →
      (j.now - t0 < cfg.cooldown_seconds →
        (detectorStep cfg ⟨.cooldown t0, c', buf'⟩ j).1.phase = .cooldown t0 ∧
        (detectorStep cfg ⟨.cooldown t0, c', buf'⟩ j).1.trigger_counter = c' ∧
        (detectorStep cfg ⟨.cooldown t0, c', buf'⟩ j).2 = false) ∧
      (cfg.cooldown_seconds ≤ j.now - t0 →
        (detectorStep cfg ⟨.cooldown t0, c', buf'⟩ j).1.phase = .idle ∧
        (detectorStep cfg ⟨.cooldown t0, c', buf'⟩ j).1.trigger_counter = 0 ∧
        (detectorStep cfg ⟨.cooldown t0, c', buf'⟩ j).2 = false)) := by
  obtain ⟨p, hfr⟩ := Option.isSome_iff_exists.mp (hpres i (List.mem_cons_self i rest))
  obtain ⟨f, mv⟩ := p
  have hstep : detectorStep cfg ⟨.triggered, c, buf⟩ i
      = (⟨.cooldown i.now, c, ClipBuffer.append cfg.L cfg.C buf f
          (if mv then 1 else 0)⟩, false) := by
    simp [detectorStep, hfr]
  refine ⟨⟨by rw [hstep], by rw [hstep]⟩, ?_, ?_⟩
  · intro t ht
    rw [firedTimes, hstep] at ht
    simp at ht
    exact cooldown_no_early_fire cfg rest (List.pairwise_cons.mp hmono).2
      i.now c _ t ht
  · intro t0 c' buf' j f' mv' hj
    constructor
    · intro hlt
      have hstep' : detectorStep cfg ⟨.cooldown t0, c', buf'⟩ j
          = (⟨.cooldown t0, c', ClipBuffer.append cfg.L cfg.C buf' f'
              (if mv' then 1 else 0)⟩, false) := by
        simp [detectorStep, hj, not_le.mpr (by linarith : j.now - t0 < cfg.cooldown_seconds)]
      rw [hstep']
      exact ⟨rfl, rfl, rfl⟩
    · intro hge
      have hstep' : detectorStep cfg ⟨.cooldown t0, c', buf'⟩ j
          = (⟨.idle, 0, ClipBuffer.append cfg.L cfg.C buf' f'
              (if mv' then 1 else 0)⟩, false) := by
        simp [detectorStep, hj, (by linarith : j.now - t0 ≥ cfg.cooldown_seconds)]
      rw [hstep']
      exact ⟨rfl, rfl, rfl⟩

unseal Rat.add Rat.sub Rat.mul Rat.inv in
/-- C3 (witness): a concrete three-cycle run from Triggered at time 0
with cooldown 20 whose only elapsed cycle is at time 100 fires nothing
before time 20; the first conjunct of the theorem instantiated. -/
theorem C3_witness :
    (detectorStep cfgC2 (⟨.triggered, 0, ClipBuffer.init⟩ : DetState ℕ)
      ⟨0, some (0, true)⟩).1.phase = DetPhase.cooldown 0 ∧
    (∀ t ∈ firedTimes cfgC2 (⟨.triggered, 0, ClipBuffer.init⟩ : DetState ℕ)
      [⟨0, some (0, true)⟩, ⟨1, some (0, true)⟩, ⟨100, some (0, true)⟩],
      0 + cfgC2.cooldown_seconds ≤ t) := by
  have h := C3_cooldown_blocks_retrigger cfgC2 0 (ClipBuffer.init (α := ℕ))
    ⟨0, some (0, true)⟩ [⟨1, some (0, true)⟩, ⟨100, some (0, true)⟩]
    (by
      intro j hj
      fin_cases hj
      · rfl
      · rfl
      · rfl)
    (by
      constructor
      · intro j hj
        fin_cases hj <;> norm_num
      · constructor
        · intro j hj
          fin_cases hj <;> norm_num
        · simp)
  have hnow : (⟨0, some (0, true)⟩ : DetCycle ℕ).now = 0 := rfl
  exact ⟨hnow ▸ h.1.1, hnow ▸ h.2.1⟩

unseal Rat.add Rat.sub Rat.mul Rat.inv in
/-- C5: the ClipBuffer of detector.py with fps = 1 and clip_seconds = 4
(window length L = 4, buffer capacity C = 124), fed the motion score
sequence 0,0,0,0,1,0,1,1,0,1,0,0,0,0 one append at a time, ends with
window_totals equal to 3,2,3,2,1,1,0 (so in particular that is its tail);
this is the scenario of buffer_test.py, test_trim. -/
theorem C5_trim_scenario :
    (ClipBuffer.runAppends 4 124 (ClipBuffer.init (α := ℕ))
      (List.zip (List.range 14)
        [0, 0, 0, 0, 1, 0, 1, 1, 0, 1, 0, 0, 0, 0])).window_totals
      = [3, 2, 3, 2, 1, 1, 0] := by
  decide

lemma camReconnect_frame (maxA : ℤ) (ok : Bool) (s : CamState) :
    (camReconnect maxA ok s).2.frame = s.frame := by
  rcases Classical.em (maxA > 0 ∧ (s.reconnect_attempts : ℤ) ≥ maxA) with h | h
  · simp [camReconnect, h]
  · cases ok <;> simp [camReconnect, h]

lemma camStep_frame (maxA : ℤ) (s : CamState) (i : CamCycle)
    (h : i.read = none) :
    (camStep maxA s i).1.frame = s.frame := by
  by_cases hcap : s.cap <;>
    simp only [camStep, hcap, h, if_true, if_false] <;>
    split_ifs <;>
    simp_all [camReconnect_frame]

lemma camRun_frame_of_reads_none (maxA : ℤ) :
    ∀ (inputs : List CamCycle) (s : CamState),
    (∀ i ∈ inputs, i.read = none) →
    (camRun maxA s inputs).1.frame = s.frame := by
  intro inputs
  induction inputs with
  | nil =>
    intro s _
    rfl
  | cons i rest ih =>
    intro s hr
    have hstep := camStep_frame maxA s i (hr i (List.mem_cons_self i rest))
    simp only [camRun]
    by_cases hb : (camStep maxA s i).2
    · rw [if_pos hb]
      exact hstep
    · rw [if_neg hb]
      rw [ih _ (fun j hj => hr j (List.mem_cons_of_mem i hj)), hstep]

set_option maxRecDepth 40000 in
unseal Rat.add Rat.sub Rat.mul Rat.inv in
/-- C7 (counterexample): the claim fails in its last part.  A camera with
max_reconnect_attempts = 2 that published frame 7 before losing the
stream performs exactly 2 reconnect attempts across eleven failing
cycles and stops its loop - but get_frame then returns the stale frame 7,
not absence of a frame: the latest-frame slot is never cleared. -/
theorem C7_counterexample :
    (camRun 2 c7Start c7Inputs).2 = true ∧
    (camRun 2 c7Start c7Inputs).1.reconnect_attempts = 2 ∧
    CamState.get_frame (camRun 2 c7Start c7Inputs).1 = some 7 ∧
    CamState.get_frame (camRun 2 c7Start c7Inputs).1 ≠ none := by
  refine ⟨by decide, by decide, by decide, by decide⟩

set_option maxRecDepth 40000 in
unseal Rat.add Rat.sub Rat.mul Rat.inv in
/-- C7 (amended): a frame source with maxReconnectAttempts = 2 whose
stream is lost and whose reconnection attempts all fail performs exactly
2 reconnect attempts and then stops its capture loop (no exception
escapes: every loop iteration is a total step function); every subsequent
GetLatestFrame call returns the frame slot as it was before the loss -
the last published frame, or absence only if no frame was ever
published.  In general, no sequence of failing reads ever modifies the
frame slot. -/
theorem C7_budget_exhaustion_keeps_stale_frame :
    (camRun 2 c7Start c7Inputs).2 = true ∧
    (camRun 2 c7Start c7Inputs).1.reconnect_attempts = 2 ∧
    CamState.get_frame (camRun 2 c7Start c7Inputs).1
      = CamState.get_frame c7Start ∧
    (∀ (maxA : ℤ) (s : CamState) (inputs : List CamCycle),
      (∀ i ∈ inputs, i.read = none) →
      CamState.get_frame (camRun maxA s inputs).1 = CamState.get_frame s) := by
  refine ⟨by decide, by decide, by decide, ?_⟩
  intro maxA s inputs hr
  exact camRun_frame_of_reads_none maxA inputs s hr

/-- C7 (witness): the frame-preservation part applied to the concrete
failing scenario. -/
theorem C7_witness :
    CamState.get_frame (camRun 2 c7Start c7Inputs).1
      = CamState.get_frame c7Start :=
  C7_budget_exhaustion_keeps_stale_frame.2.2.2 2 c7Start c7Inputs
    (by decide)

/-- C8: evaluation of the single-flight guard at the failing
interleaving.  When two triggers both pass the is_recording check before
the first spawned _write_clip thread has executed its first statement,
two clip jobs are in flight at once - the guard does not ensure at most
one, because the flag is set inside the spawned job rather than before
spawning.  The remaining conjuncts show the parts of the mechanism that
do hold: once a job is running, a new trigger's clip request is dropped
(logged) and not queued, the trigger path itself proceeds, and the flag
is cleared on completion both on success and on failure. -/
theorem C8_single_flight_race :
    inFlight (dispatchRun dispatchInit
      [.fireTrigger false, .fireTrigger true]) = 2 ∧
    (dispatchRun dispatchInit
      [.fireTrigger false, .beginJob false, .fireTrigger true]).dropped
        = [2] ∧
    (dispatchRun dispatchInit
      [.fireTrigger false, .beginJob false, .fireTrigger true]).job2
        = JobPhase.notSpawned ∧
    (dispatchRun dispatchInit
      [.fireTrigger false, .beginJob false,
        .finishJob false false]).is_recording = false ∧
    (dispatchRun dispatchInit
      [.fireTrigger false, .beginJob false,
        .finishJob false true]).is_recording = false := by
  decide

end Birdwatched
